import Mathlib

/-!
Verification development for the momo-daily-brief-scheduler service.

We give a shallow embedding of the scheduler's core logic:

* `src/handlers/supabase-helper.js` — the delivery-history store
  (`brief_usage` table) and the dedup queries `checkIfAlreadySent`,
  `checkIfSentRecently`, the insert `logBriefSent`, and the registry
  fetch `getActiveUsers`.
* `src/scheduler.js` — the trigger converter `convertToCronTime`,
  the per-user firing callback installed by `createUserCronJob`, and
  the reconciliation loop `syncAllSchedules`.
* `src/services/webhook-client.js` — the generation coordinator's
  cache / in-flight coalescing (`DailyBriefGenerator.generateDailyBrief`)
  and the retry helper (`retryOperation`).

Time is modelled in integral units (milliseconds for the database layer,
minutes for the timezone layer), matching the integral arithmetic the
JavaScript performs on epoch timestamps.  PostgREST result shapes
(`.single()`, `.limit(1).maybeSingle()`) are modelled by small
functions on row lists.  JavaScript truthiness of optional string
fields is modelled by `truthy` (absent or empty means falsy).
-/

/-- One row of the `brief_usage` table: a DeliveryRecord.
`last_used` is an epoch timestamp in milliseconds (UTC). -/
structure BriefRecord where
  user_id : String
  last_used : Nat
  status : String
  error_message : Option String
deriving Repr, DecidableEq

/-- JavaScript truthiness for an optional string field:
`undefined`/`null` and `""` are falsy, everything else truthy. -/
def truthy : Option String → Bool
  | none => false
  | some s => s ≠ ""

/-- PostgREST `.single()`: the `data` field is non-null exactly when the
query matched exactly one row; zero rows or two-or-more rows produce an
error response with `data = null`. -/
def singleQuery {α : Type} (rows : List α) : Option α :=
  match rows with
  | [r] => some r
  | _ => none

/-- PostgREST `.limit(1).maybeSingle()`: the `data` field is non-null
exactly when the query matched at least one row (the limit keeps one). -/
def limitOneMaybeSingle {α : Type} (rows : List α) : Option α :=
  match rows with
  | [] => none
  | r :: _ => some r

/-- Milliseconds in one UTC day. -/
def msPerDay : Nat := 86400000

/-- Model of `moment().utc().startOf("day")`: start of the current UTC calendar
day, in epoch milliseconds. -/
def startOfUtcDay (now : Nat) : Nat := now - now % msPerDay

/-- The row filter of `checkIfAlreadySent`:
`.eq("user_id", userId).gte("last_used", today)`. -/
def rowsSince (db : List BriefRecord) (userId : String) (since : Nat) :
    List BriefRecord :=
  db.filter (fun r => r.user_id == userId && since ≤ r.last_used)

/-- Model of `checkIfAlreadySent(userId)` from `src/handlers/supabase-helper.js`:
select rows for the user since the start of the current UTC day with
`.single()`, and return `!!data`.  The `error` field is ignored. -/
def checkIfAlreadySent (db : List BriefRecord) (now : Nat)
    (userId : String) : Bool :=
  (singleQuery (rowsSince db userId (startOfUtcDay now))).isSome

/-- Model of `checkIfSentRecently(userId, windowSeconds)`: select rows for the
user with `last_used` at or after `now - windowSeconds*1000`, with
`.limit(1).maybeSingle()`, and return `!!data`. -/
def checkIfSentRecently (db : List BriefRecord) (now : Nat)
    (userId : String) (windowSeconds : Nat) : Bool :=
  (limitOneMaybeSingle
    (rowsSince db userId (now - windowSeconds * 1000))).isSome

/-- Model of `logBriefSent(userId, status, errorMessage)`: insert one row into
`brief_usage` with `last_used = new Date().toISOString()` (now). -/
def logBriefSent (db : List BriefRecord) (now : Nat) (userId : String)
    (status : String) (errorMessage : Option String) : List BriefRecord :=
  db ++ [{ user_id := userId, last_used := now, status := status,
           error_message := errorMessage }]

/-- A registry row of `user_preferences`, as selected by
`getActiveUsers` (`user_id, timezone, user_email, delivery_time,
slack_user_id`).  Every field may be null in the database, hence
`Option String`. -/
structure User where
  user_id : Option String
  timezone : Option String
  user_email : Option String
  delivery_time : Option String
  slack_user_id : Option String
deriving Repr, DecidableEq

/-- Outcome of one firing of a user's cron callback: the database after
the callback, and how many delivery calls (`sendBriefViaWebhook`)
were made. -/
structure FireOutcome where
  db : List BriefRecord
  deliveryCalls : Nat
deriving Repr, DecidableEq

/-- The firing callback installed by `createUserCronJob` in
`src/scheduler.js` (lines 58–123).  `sendResult` is the boolean the
external `sendBriefViaWebhook` call would return.  The callback:
checks `checkIfAlreadySent` and `checkIfSentRecently(·, 3000)`; if
neither reports, it skips (writing a `skipped` record) when
`slack_user_id` is falsy, and otherwise performs the delivery call and
logs `success`/`failed`; if either guard reports, it only logs to the
console and writes nothing. -/
def fireCallback (db : List BriefRecord) (now : Nat) (user : User)
    (sendResult : Bool) : FireOutcome :=
  let uid := user.user_id.getD ""
  let alreadySent := checkIfAlreadySent db now uid
  let sentRecently := checkIfSentRecently db now uid 3000
  if !alreadySent && !sentRecently then
    if !(truthy user.slack_user_id) then
      { db := logBriefSent db now uid "skipped"
          (some "No slack_user_id configured"),
        deliveryCalls := 0 }
    else
      { db := logBriefSent db now uid
          (if sendResult then "success" else "failed")
          (if sendResult then none else some "Failed to send via webhook"),
        deliveryCalls := 1 }
  else
    { db := db, deliveryCalls := 0 }

/-! Timezone model and the trigger converter.

The converter works at minute resolution; instants are minutes since the
epoch (`Int`).  A timezone is modelled by the two operations
moment-timezone performs on it: reading the local wall clock at a UTC
instant (`offset`, in minutes, so local = utc + offset utc), and
resolving a local wall-clock reading to a UTC instant
(`toUtc`, moment's parse of a local datetime string in the zone,
including its default disambiguation of gap/overlap times). -/

structure TZ where
  offset : Int → Int
  toUtc : Int → Int

/-- Minutes in a day. -/
def minutesPerDay : Int := 1440

/-- The zone data moment-timezone falls back to when an identifier has
no data: no offset is applied (moment logs an error and does not
throw). -/
def utcZone : TZ := { offset := fun _ => 0, toUtc := fun L => L }

/-- Model of `moment.tz(timezone).format("YYYY-MM-DD")` of "now": the start (in
local wall-clock minutes) of the current calendar day in the zone. -/
def localDayStart (z : TZ) (nowUtc : Int) : Int :=
  let localNow := nowUtc + z.offset nowUtc
  localNow - localNow % minutesPerDay

/-- Value of a decimal digit character, `none` otherwise. -/
def digitVal? (c : Char) : Option Nat :=
  if '0' ≤ c ∧ c ≤ '9' then some (c.toNat - '0'.toNat) else none

/-- Model of moment's non-strict match of a two-digit numeric token
(`HH` or `mm`) against one part of the time string: the value of the
leading run of at most two digits.  A part with no leading digit (or a
missing part, interpolated as `"undefined"`) leaves the token
unmatched, and non-strict parsing defaults an unmatched token to 0. -/
def momentToken (cs : List Char) : Nat :=
  match cs with
  | [] => 0
  | c1 :: rest =>
    match digitVal? c1 with
    | none => 0
    | some d1 =>
      match rest with
      | [] => d1
      | c2 :: _ =>
        match digitVal? c2 with
        | none => d1
        | some d2 => d1 * 10 + d2

/-- Model of `timePreference.split(":")` destructured into
`[hours, minutes]` and interpolated into `"<date> HH:mm"`, parsed by
moment non-strictly: each numeric token takes its leading digits and an
unmatched token defaults to 0 (so a digit-free string such as
`"garbage"` parses as local midnight).  Only range overflow — hours
above 23 or minutes above 59, as in `"99:99"` — makes the moment
invalid, turning its numeric accessors into `NaN`. -/
def parseTimePreference (s : String) : Option (Nat × Nat) :=
  let parts := s.toList.splitOn ':'
  let hours := momentToken (parts.headD [])
  let minutes := momentToken ((parts.drop 1).headD [])
  if hours ≤ 23 && minutes ≤ 59 then some (hours, minutes) else none

/-- The cron string `"{minute} {hour} * * *"` returned by
`convertToCronTime`; `none` models the `NaN` token that an invalid
moment interpolates into the template. -/
structure CronExpr where
  minute : Option Nat
  hour : Option Nat
deriving Repr, DecidableEq

/-- Model of `convertToCronTime(timePreference, timezone)` from
`src/scheduler.js` (lines 20–46): take today's date in the user's
timezone, build the local wall-clock time `hh:mm` on that date in the
zone, convert to UTC, and return its minutes and hours.  The function
is straight-line code with no throw path: a digit-free time string is
defaulted to local midnight by moment's non-strict parser and still
yields a valid expression, an overflowing time gives an invalid moment
and hence a `"NaN NaN * * *"` string, and an unrecognized timezone
makes moment fall back (with a logged error) instead of failing. -/
def convertToCronTime (timePreference : String) (tz : Option TZ)
    (nowUtc : Int) : CronExpr :=
  match parseTimePreference timePreference with
  | none => { minute := none, hour := none }
  | some (hh, mm) =>
    let z := tz.getD utcZone
    let userLocal := localDayStart z nowUtc + ((hh * 60 + mm : Nat) : Int)
    let utc := z.toUtc userLocal
    let tod := (utc % minutesPerDay).toNat
    { minute := some (tod % 60), hour := some (tod / 60) }

/-- node-cron accepts `"m h * * *"` exactly when both tokens are
numbers; `cron.schedule` throws on a `NaN` token. -/
def cronExprValid (c : CronExpr) : Bool :=
  c.minute.isSome && c.hour.isSome

/-- Model of `createUserCronJob(user)` up to the point where the task object
exists (`src/scheduler.js` lines 49–131): compute the cron expression
and call `cron.schedule`, which throws on an invalid expression.  The
timezone string is looked up in moment's zone database `tzdb`. -/
def createUserCronJob (tzdb : String → Option TZ) (nowUtc : Int)
    (u : User) : Except String CronExpr :=
  let expr := convertToCronTime (u.delivery_time.getD "")
      (tzdb (u.timezone.getD "")) nowUtc
  if cronExprValid expr then .ok expr else .error "invalid cron expression"

/-! Registry fetch and schedule synchronization. -/

/-- Model of `getActiveUsers()` from `src/handlers/supabase-helper.js` (lines
64–97).  `resp` is the PostgREST response: `none` models
`{ data: null, error: <err> }` (registry unreachable), in which case
the function returns `[]`; otherwise it filters out rows without a
truthy `slack_user_id`. -/
def getActiveUsers (resp : Option (List User)) : List User :=
  match resp with
  | none => []
  | some data => data.filter (fun u => truthy u.slack_user_id)

/-- The `activeTasks` map: userId to scheduled cron task, in insertion
order. -/
abbrev TaskMap := List (String × CronExpr)

/-- Model of `activeTasks.set(k, v)`: JavaScript `Map.set` replaces the entry in
place if the key exists, else appends. -/
def setTask (tasks : TaskMap) (k : String) (v : CronExpr) : TaskMap :=
  if tasks.any (fun p => p.1 == k) then
    tasks.map (fun p => if p.1 == k then (k, v) else p)
  else tasks ++ [(k, v)]

/-- The userIds currently holding a trigger. -/
def taskIds (tasks : TaskMap) : List String := tasks.map Prod.fst

/-- The per-user validation in `syncAllSchedules` (line 153):
`!user.user_id || !user.delivery_time || !user.timezone` skips. -/
def hasRequiredFields (u : User) : Bool :=
  truthy u.user_id && truthy u.delivery_time && truthy u.timezone

/-- One iteration of the install loop in `syncAllSchedules` (lines
150–179): skip when required fields are missing; otherwise create and
start the cron job, catching any per-user exception (an invalid cron
expression) so the loop continues. -/
def syncStep (tzdb : String → Option TZ) (nowUtc : Int)
    (tasks : TaskMap) (u : User) : TaskMap :=
  if !(hasRequiredFields u) then tasks
  else
    match createUserCronJob tzdb nowUtc u with
    | .ok c => setTask tasks (u.user_id.getD "") c
    | .error _ => tasks

/-- Model of `syncAllSchedules()` from `src/scheduler.js` (lines 134–187).  The
cycle first stops every existing task and clears `activeTasks`, and
only then fetches the registry; it then installs a task per valid user.
`getActiveUsers` never throws (it returns `[]` on a registry error), so
the surrounding try/catch changes nothing here. -/
def syncAllSchedules (tasks : TaskMap) (resp : Option (List User))
    (tzdb : String → Option TZ) (nowUtc : Int) : TaskMap :=
  let cleared : TaskMap := []
  (getActiveUsers resp).foldl (syncStep tzdb nowUtc) cleared

/-! The retry helper:

`DailyBriefGenerator.retryOperation(operation, throwOnFailure,
maxRetries, baseDelay)` from `src/services/webhook-client.js`
(lines 587–613).  The operation is modelled as a function from the
attempt number to its outcome; the trace records the result, how many
times the operation ran, and every backoff delay awaited, in order. -/

/-- What `retryOperation` ultimately does: return the operation's
value, rethrow the last error (`throwOnFailure` true), return the empty
array (`throwOnFailure` false), or — when `maxRetries` is zero so the
loop body never runs — return `undefined`. -/
inductive RetryResult (α : Type) where
  | ok (a : α)
  | thrown (e : String)
  | emptyFallback
  | undef
deriving Repr, DecidableEq

structure RetryTrace (α : Type) where
  result : RetryResult α
  attempts : Nat
  delays : List Nat
deriving Repr, DecidableEq

/-- The loop body of `retryOperation`, iterating `attempt` upward while
`remaining` iterations are left (`remaining = maxRetries - attempt + 1`
at each entry, so `remaining = 1` exactly when
`attempt === maxRetries`).  After a non-final failure it awaits
`baseDelay * 2 ** (attempt - 1)` and retries. -/
def retryGo {α : Type} (op : Nat → Except String α) (throwOnFailure : Bool)
    (baseDelay : Nat) : Nat → Nat → RetryTrace α
  | _, 0 => { result := .undef, attempts := 0, delays := [] }
  | attempt, remaining + 1 =>
    match op attempt with
    | .ok a => { result := .ok a, attempts := 1, delays := [] }
    | .error e =>
      match remaining with
      | 0 =>
        if throwOnFailure then
          { result := .thrown e, attempts := 1, delays := [] }
        else
          { result := .emptyFallback, attempts := 1, delays := [] }
      | remaining' + 1 =>
        let d := baseDelay * 2 ^ (attempt - 1)
        let rest := retryGo op throwOnFailure baseDelay (attempt + 1)
            (remaining' + 1)
        { result := rest.result, attempts := rest.attempts + 1,
          delays := d :: rest.delays }

/-- Model of `retryOperation` with its defaults
(`throwOnFailure = true, maxRetries = 3, baseDelay = 1000`): run the
loop from attempt 1. -/
def retryOperation {α : Type} (op : Nat → Except String α)
    (throwOnFailure : Bool := true) (maxRetries : Nat := 3)
    (baseDelay : Nat := 1000) : RetryTrace α :=
  retryGo op throwOnFailure baseDelay 1 maxRetries

/-! Concurrency model of the sync entry points.

`syncAllSchedules` is `async`: it runs as a sequence of synchronous
segments separated by `await`s.  The only `await` that suspends it
against other sync cycles is `await getActiveUsers()` — the clear loop
before it is synchronous, and the install loop after it is synchronous.
A sync request (hourly timer, startup, realtime notification, or the
HTTP `/sync` endpoint in `src/index.js`) simply invokes the function:
nothing in `src/scheduler.js` reads or writes the `syncInProgress`
flag declared on line 18, so no request is ever dropped and cycles may
interleave at the `await`. -/

/-- Progress of one invocation of `syncAllSchedules`: entered (about to
clear), cleared (awaiting `getActiveUsers`), or finished installing. -/
inductive SyncPhase where
  | started
  | cleared
  | installed
deriving Repr, DecidableEq

/-- Scheduler-level state: the shared `activeTasks` map, every sync
invocation so far with its progress, and the (declared, never touched)
`syncInProgress` flag. -/
structure SchedState where
  tasks : TaskMap
  cycles : List SyncPhase
  syncInProgress : Bool
deriving Repr, DecidableEq

/-- Events: a sync request arrives, or the event loop resumes
invocation `i` through its next synchronous segment. -/
inductive SyncEvent where
  | request
  | resume (i : Nat)
deriving Repr, DecidableEq

/-- How many sync invocations are currently in progress. -/
def inProgressSyncs (s : SchedState) : Nat :=
  s.cycles.countP (fun c => c ≠ SyncPhase.installed)

/-- One scheduler step.  `request` starts a cycle unconditionally —
the code consults no guard before calling `syncAllSchedules`.
`resume i` runs invocation `i`'s next segment: clearing stops and
empties the shared map; the segment after the `await` installs onto
the shared map as it is at that moment. -/
def stepSync (resp : Option (List User)) (tzdb : String → Option TZ)
    (nowUtc : Int) (s : SchedState) : SyncEvent → SchedState
  | .request => { s with cycles := s.cycles ++ [SyncPhase.started] }
  | .resume i =>
    match s.cycles.get? i with
    | some SyncPhase.started =>
      { s with tasks := [], cycles := s.cycles.set i SyncPhase.cleared }
    | some SyncPhase.cleared =>
      { s with
        tasks := (getActiveUsers resp).foldl (syncStep tzdb nowUtc) s.tasks,
        cycles := s.cycles.set i SyncPhase.installed }
    | _ => s

/-- Run a sequence of scheduler events. -/
def runSync (resp : Option (List User)) (tzdb : String → Option TZ)
    (nowUtc : Int) (s : SchedState) (es : List SyncEvent) : SchedState :=
  es.foldl (stepSync resp tzdb nowUtc) s

/-! Concurrency model of the generation coordinator:

`DailyBriefGenerator.generateDailyBrief` (lines 196–276 of
`src/services/webhook-client.js`) for one cache key.  Its synchronous
entry segment checks the cache and the `inFlight` map; a caller that
passes both checks then `await`s `getUserPreferences` *before*
registering anything in `inFlight` — registration happens only in the
later segment that creates the generation promise.  `genDone`/
`genFailed` model the generation promise settling: the `finally`
deletes the in-flight entry, success also writes the cache; a caller
that had joined the in-flight promise completes with it on success and
on failure falls through to a fresh attempt (its own preference
lookup). -/

/-- Progress of one `generateDailyBrief` call for the key. -/
inductive CallPhase where
  | fetchingPrefs
  | joinedInFlight
  | generating
  | gotCached
  | done
deriving Repr, DecidableEq

/-- Coordinator state for one cache key: the cached brief's timestamp
(if any), whether the in-flight map holds the key, the calls so far
with their progress, and how many times the generation pipeline
(`generateBriefContent`) was invoked. -/
structure GenState where
  cache : Option Nat
  inFlight : Bool
  calls : List CallPhase
  upstreamCalls : Nat
deriving Repr, DecidableEq

/-- Cache TTL: `CACHE_DURATION = 30000` ms. -/
def CACHE_DURATION : Nat := 30000

/-- Events: a call arrives at time `now`; call `i`'s preference lookup
resolves (it registers in-flight and starts the pipeline); call `i`'s
generation settles at `now`, successfully or not. -/
inductive GenEvent where
  | start (now : Nat)
  | prefsDone (i : Nat)
  | genDone (i : Nat) (now : Nat)
  | genFailed (i : Nat)
deriving Repr, DecidableEq

/-- One coordinator step. -/
def stepGen (s : GenState) : GenEvent → GenState
  | .start now =>
    match s.cache with
    | some t =>
      if now - t < CACHE_DURATION then
        { s with calls := s.calls ++ [CallPhase.gotCached] }
      else
        -- expired entry is deleted, then the in-flight check runs
        if s.inFlight then
          { s with cache := none,
                   calls := s.calls ++ [CallPhase.joinedInFlight] }
        else
          { s with cache := none,
                   calls := s.calls ++ [CallPhase.fetchingPrefs] }
    | none =>
      if s.inFlight then
        { s with calls := s.calls ++ [CallPhase.joinedInFlight] }
      else
        { s with calls := s.calls ++ [CallPhase.fetchingPrefs] }
  | .prefsDone i =>
    match s.calls.get? i with
    | some CallPhase.fetchingPrefs =>
      { s with inFlight := true,
               calls := s.calls.set i CallPhase.generating,
               upstreamCalls := s.upstreamCalls + 1 }
    | _ => s
  | .genDone i now =>
    match s.calls.get? i with
    | some CallPhase.generating =>
      { s with inFlight := false,
               cache := some now,
               calls := (s.calls.set i CallPhase.done).map
                 (fun c => if c = CallPhase.joinedInFlight
                           then CallPhase.done else c) }
    | _ => s
  | .genFailed i =>
    match s.calls.get? i with
    | some CallPhase.generating =>
      { s with inFlight := false,
               calls := (s.calls.set i CallPhase.done).map
                 (fun c => if c = CallPhase.joinedInFlight
                           then CallPhase.fetchingPrefs else c) }
    | _ => s

/-- Run a sequence of coordinator events. -/
def runGen (s : GenState) (es : List GenEvent) : GenState :=
  es.foldl stepGen s

/-! Derived readings used to state the round-trip property, and the
spec-side validity predicate used for the refinement comparison of the
active-trigger set. -/

/-- Reading the UTC wall clock at instant `u`: the pair (hour, minute). -/
def utcHM (u : Int) : Nat × Nat :=
  let tod := (u % minutesPerDay).toNat
  (tod / 60, tod % 60)

/-- Reading the local wall clock of zone `z` at UTC instant `u`. -/
def localHM (z : TZ) (u : Int) : Nat × Nat :=
  let tod := ((u + z.offset u) % minutesPerDay).toNat
  (tod / 60, tod % 60)

/-- The (hour, minute) pair of a cron expression, when both tokens are
numbers. -/
def cronHM (c : CronExpr) : Option (Nat × Nat) :=
  match c.hour, c.minute with
  | some h, some m => some (h, m)
  | _, _ => none

/-- Modelled from the spec: the registry-side condition of the claimed
active-trigger set — all required fields (`userId`, `deliveryTimeLocal`,
`timezone`) present and a recipientId (`slack_user_id`).  Used only to
compare the spec's claimed set with the one the code produces. -/
def specValidEntry (u : User) : Bool :=
  hasRequiredFields u && truthy u.slack_user_id

/-- The install-loop success condition the code actually enforces on
top of `specValidEntry`: the schedule also converts to a valid cron
expression (so `cron.schedule` does not throw). -/
def cronJobOk (tzdb : String → Option TZ) (nowUtc : Int) (u : User) : Bool :=
  match createUserCronJob tzdb nowUtc u with
  | .ok _ => true
  | .error _ => false

/-! Concrete fixtures.  `newYorkMinus4` / `newYorkMinus5` are
America/New_York on a date where it observes UTC-4 (EDT) respectively
UTC-5 (EST); offsets are constant on the reference day.  `refNow` is a
reference instant in minutes since the epoch. -/

def newYorkMinus4 : TZ :=
  { offset := fun _ => -240, toUtc := fun L => L + 240 }

def newYorkMinus5 : TZ :=
  { offset := fun _ => -300, toUtc := fun L => L + 300 }

/-- A moment zone database on a date where New York observes UTC-4. -/
def tzdbSummer : String → Option TZ := fun s =>
  if s = "America/New_York" then some newYorkMinus4 else none

def refNow : Int := 29700000

/-- A fully configured registry row. -/
def alice : User :=
  { user_id := some "u1", timezone := some "America/New_York",
    user_email := some "alice@example.com",
    delivery_time := some "08:00", slack_user_id := some "U111" }

/-- A row with every required field present (and truthy) and a
recipientId, but a malformed delivery time. -/
def mallory : User :=
  { user_id := some "u3", timezone := some "America/New_York",
    user_email := some "mallory@example.com",
    delivery_time := some "99:99", slack_user_id := some "U333" }

/-- A row with no `slack_user_id`. -/
def carol : User :=
  { user_id := some "u5", timezone := some "America/New_York",
    user_email := some "carol@example.com",
    delivery_time := some "08:00", slack_user_id := none }

/-- A `success` DeliveryRecord for `u1`, written early today UTC. -/
def successRecord : BriefRecord :=
  { user_id := "u1", last_used := 1000000, status := "success",
    error_message := none }

/-- A later `failed` DeliveryRecord for `u1`, same UTC day. -/
def failedRecord : BriefRecord :=
  { user_id := "u1", last_used := 2000000, status := "failed",
    error_message := some "Failed to send via webhook" }

/-- History holding exactly one record for `u1` today. -/
def historyOne : List BriefRecord := [successRecord]

/-- History holding two records for `u1` today, the later one long
before the cooldown window. -/
def historyTwo : List BriefRecord := [successRecord, failedRecord]

/-- A firing instant later the same UTC day (before `msPerDay`), more
than 3000 s after both records. -/
def fireNow : Nat := 80000000

/-- A prior active-trigger map holding one installed trigger. -/
def priorTasks : TaskMap :=
  [("u1", { minute := some 0, hour := some 12 })]

/-- Scheduler state before any sync activity. -/
def schedInit : SchedState :=
  { tasks := [], cycles := [], syncInProgress := false }

/-- Coordinator state before any call. -/
def genInit : GenState :=
  { cache := none, inFlight := false, calls := [], upstreamCalls := 0 }

/-- Coordinator state with a generation registered in flight. -/
def genWithInFlight : GenState :=
  { cache := none, inFlight := true, calls := [CallPhase.generating],
    upstreamCalls := 1 }

/-! Theorems.  Helper lemmas come first; each claim's theorem carries a
doc comment naming the claim. -/

/-- C10: the daily dedup check reports a prior brief exactly when
exactly one DeliveryRecord exists for the user since the start of the
current UTC day — the single-row fetch yields no data for zero rows and
also for two-or-more rows, so with multiple records already written
today the check returns false. -/
theorem checkIfAlreadySent_iff_single_record
    (db : List BriefRecord) (now : Nat) (userId : String) :
    checkIfAlreadySent db now userId = true ↔
      (rowsSince db userId (startOfUtcDay now)).length = 1 := by
  unfold checkIfAlreadySent
  cases h : rowsSince db userId (startOfUtcDay now) with
  | nil => simp [singleQuery]
  | cons a t =>
    cases t with
    | nil => simp [singleQuery]
    | cons b t' => simp [singleQuery]

/-- C1 (code bug): `historyTwo` holds a `success` DeliveryRecord for
`u1` written since the start of the current UTC day, yet a firing at
`fireNow` (same UTC day, outside the 3000 s cooldown) performs a
delivery call: with two records already present, the single-row dedup
query returns no data and the guard reports nothing. -/
theorem dedup_guard_bypassed_with_two_records :
    successRecord ∈ historyTwo ∧ successRecord.status = "success" ∧
    startOfUtcDay fireNow ≤ successRecord.last_used ∧ fireNow < msPerDay ∧
    checkIfAlreadySent historyTwo fireNow "u1" = false ∧
    checkIfSentRecently historyTwo fireNow "u1" 3000 = false ∧
    (fireCallback historyTwo fireNow alice true).deliveryCalls = 1 := by
  decide

/-- C2 counterexample: with one trigger installed and the registry
fetch failing, the completed sync cycle leaves zero active triggers —
the prior trigger set does not remain installed. -/
theorem registry_failure_clears_all_triggers :
    syncAllSchedules priorTasks none tzdbSummer refNow = [] ∧
    priorTasks ≠ [] := by
  decide

/-- C2 amended: when the registry is unreachable, `getActiveUsers`
returns the empty list and the sync cycle — which stopped and cleared
every prior trigger before fetching — completes with an empty
active-trigger map, for every prior trigger set. -/
theorem syncAllSchedules_registry_failure (tasks : TaskMap)
    (tzdb : String → Option TZ) (nowUtc : Int) :
    syncAllSchedules tasks none tzdb nowUtc = [] := rfl

/-- C9 counterexample: a firing skipped by the daily dedup guard
(`checkIfAlreadySent` is true) writes nothing at all to the
delivery-history store — in particular no `status=skipped` record. -/
theorem dedup_skip_writes_no_skipped_record :
    checkIfAlreadySent historyOne fireNow "u1" = true ∧
    fireCallback historyOne fireNow alice true =
      { db := historyOne, deliveryCalls := 0 } ∧
    (fireCallback historyOne fireNow alice true).db.filter
      (fun r => r.status == "skipped") = [] := by
  decide

/-- C9 amended: a firing skipped by the dedup guard (daily dedup hit or
cooldown hit) makes no delivery call and writes no DeliveryRecord at
all — so in particular it is not recorded as a delivery failure; a
`status=skipped` record (with reason) is written only for the
missing-`slack_user_id` skip. -/
theorem fireCallback_skip_behavior (db : List BriefRecord) (now : Nat)
    (user : User) (sendResult : Bool) :
    (checkIfAlreadySent db now (user.user_id.getD "") = true ∨
        checkIfSentRecently db now (user.user_id.getD "") 3000 = true →
      fireCallback db now user sendResult =
        { db := db, deliveryCalls := 0 }) ∧
    (checkIfAlreadySent db now (user.user_id.getD "") = false →
      checkIfSentRecently db now (user.user_id.getD "") 3000 = false →
      truthy user.slack_user_id = false →
      fireCallback db now user sendResult =
        { db := logBriefSent db now (user.user_id.getD "") "skipped"
            (some "No slack_user_id configured"),
          deliveryCalls := 0 }) := by
  constructor
  · intro h
    rcases h with h | h <;> simp [fireCallback, h]
  · intro h1 h2 h3
    simp [fireCallback, h1, h2, h3]

/-- Witness for the C9 amended theorem at a concrete state where the
daily dedup guard reports a prior record. -/
theorem fireCallback_skip_behavior_witness :
    fireCallback historyOne fireNow alice true =
      { db := historyOne, deliveryCalls := 0 } :=
  (fireCallback_skip_behavior historyOne fireNow alice true).1
    (Or.inl (by decide))

/-- C4 (code bug): a sync request arriving while a cycle is in progress
is not dropped.  After one request and its first segment a cycle is in
progress; a second request still appends a new cycle, both cycles run
to completion interleaved, and the declared `syncInProgress` mutex is
never engaged by any step — no step reads it (requests start a cycle
unconditionally) and no step writes it. -/
theorem sync_request_during_cycle_not_dropped :
    inProgressSyncs (runSync (some [alice]) tzdbSummer refNow schedInit
      [SyncEvent.request, SyncEvent.resume 0]) = 1 ∧
    (runSync (some [alice]) tzdbSummer refNow schedInit
      [SyncEvent.request, SyncEvent.resume 0, SyncEvent.request]).cycles =
      [SyncPhase.cleared, SyncPhase.started] ∧
    (runSync (some [alice]) tzdbSummer refNow schedInit
      [SyncEvent.request, SyncEvent.resume 0, SyncEvent.request,
       SyncEvent.resume 1, SyncEvent.resume 0, SyncEvent.resume 1]).cycles =
      [SyncPhase.installed, SyncPhase.installed] ∧
    (∀ (s : SchedState) (e : SyncEvent),
      (stepSync (some [alice]) tzdbSummer refNow s e).syncInProgress =
        s.syncInProgress) ∧
    (∀ s : SchedState,
      (stepSync (some [alice]) tzdbSummer refNow s
        SyncEvent.request).cycles = s.cycles ++ [SyncPhase.started]) := by
  refine ⟨by decide, by decide, by decide, ?_, fun s => rfl⟩
  intro s e
  cases e with
  | request => rfl
  | resume i =>
    rcases h : s.cycles.get? i with _ | c
    · rw [List.get?_eq_getElem?] at h
      simp [stepSync, h]
    · rw [List.get?_eq_getElem?] at h
      cases c <;> simp [stepSync, h]

/-- C5 counterexample: two produce calls for the same key arrive while
neither has yet registered an in-flight promise (registration happens
only after the awaited preference lookup); both pass the cache and
in-flight checks, and each then invokes the generation pipeline — two
upstream invocations within the cache TTL, not exactly one. -/
theorem concurrent_produce_two_upstream_calls :
    (runGen genInit [GenEvent.start 0, GenEvent.start 1]).calls =
      [CallPhase.fetchingPrefs, CallPhase.fetchingPrefs] ∧
    (runGen genInit [GenEvent.start 0, GenEvent.start 1,
      GenEvent.prefsDone 0, GenEvent.prefsDone 1]).upstreamCalls = 2 := by
  decide

/-- C5 amended: a produce call arriving when an in-flight promise is
registered triggers no upstream invocation — it receives the cached
result or joins the in-flight generation; each call that passed the
in-flight check before any registration invokes the pipeline when its
preference lookup resolves; and a joined caller whose in-flight attempt
fails falls through to a fresh attempt instead of completing with the
stale failure. -/
theorem produce_coalescing_behavior (s : GenState) (now : Nat) (i j : Nat) :
    (s.inFlight = true →
      (stepGen s (GenEvent.start now)).upstreamCalls = s.upstreamCalls ∧
      ((stepGen s (GenEvent.start now)).calls =
          s.calls ++ [CallPhase.joinedInFlight] ∨
        (stepGen s (GenEvent.start now)).calls =
          s.calls ++ [CallPhase.gotCached])) ∧
    (s.calls.get? i = some CallPhase.fetchingPrefs →
      (stepGen s (GenEvent.prefsDone i)).upstreamCalls =
        s.upstreamCalls + 1) ∧
    (s.calls.get? i = some CallPhase.generating →
      s.calls.get? j = some CallPhase.joinedInFlight →
      (stepGen s (GenEvent.genFailed i)).calls.get? j =
        some CallPhase.fetchingPrefs) := by
  refine ⟨?_, ?_, ?_⟩
  · intro hin
    unfold stepGen
    cases hc : s.cache with
    | none => simp [hin]
    | some t =>
      by_cases hfresh : now - t < CACHE_DURATION
      · simp [hfresh]
      · simp [hfresh, hin]
  · intro h
    rw [List.get?_eq_getElem?] at h
    simp [stepGen, h]
  · intro hi hj
    have hij : i ≠ j := by
      intro he
      rw [he, hj] at hi
      exact absurd hi (by simp)
    simp only [stepGen, hi]
    rw [List.get?_map, List.get?_set_ne _ _ hij, hj]
    rfl

/-- Witness for the C5 amended theorem at a concrete in-flight state. -/
theorem produce_coalescing_behavior_witness :
    (stepGen genWithInFlight (GenEvent.start 0)).upstreamCalls =
      genWithInFlight.upstreamCalls ∧
    ((stepGen genWithInFlight (GenEvent.start 0)).calls =
        genWithInFlight.calls ++ [CallPhase.joinedInFlight] ∨
      (stepGen genWithInFlight (GenEvent.start 0)).calls =
        genWithInFlight.calls ++ [CallPhase.gotCached]) :=
  (produce_coalescing_behavior genWithInFlight 0 0 0).1 rfl

/-- C7 counterexample: `mallory` has every required field present
(`userId`, `deliveryTimeLocal`, `timezone`) and a recipientId, yet
after a completed sync cycle over a registry holding exactly her entry
the active-trigger map is empty — its userId set is not the claimed
set `{u3}` — because her malformed delivery time makes trigger
installation fail. -/
theorem valid_entry_without_trigger :
    specValidEntry mallory = true ∧
    syncAllSchedules priorTasks (some [mallory]) tzdbSummer refNow = [] := by
  decide

/-- A map update on an existing key leaves the key list unchanged. -/
theorem taskIds_map_update (t : TaskMap) (k : String) (v : CronExpr) :
    taskIds (t.map fun p => if p.1 == k then (k, v) else p) = taskIds t := by
  unfold taskIds
  rw [List.map_map]
  apply List.map_congr_left
  intro p _
  by_cases hpk : p.1 = k
  · simp [hpk]
  · simp [hpk]

/-- Membership in the key set after a `Map.set`. -/
theorem mem_taskIds_setTask (t : TaskMap) (k x : String) (v : CronExpr) :
    x ∈ taskIds (setTask t k v) ↔ x ∈ taskIds t ∨ x = k := by
  unfold setTask
  by_cases h : t.any (fun p => p.1 == k) = true
  · have hk : k ∈ taskIds t := by
      rcases List.any_eq_true.mp h with ⟨p, hp, he⟩
      have hpe : p.1 = k := by simpa using he
      exact hpe ▸ List.mem_map_of_mem Prod.fst hp
    rw [if_pos h, taskIds_map_update]
    constructor
    · exact Or.inl
    · rintro (hx | rfl)
      · exact hx
      · exact hk
  · rw [if_neg h]
    unfold taskIds
    simp

/-- Membership in the key set produced by the install loop of
`syncAllSchedules`, folded from an accumulator. -/
theorem mem_taskIds_syncFold (tzdb : String → Option TZ) (nowUtc : Int) :
    ∀ (us : List User) (acc : TaskMap) (x : String),
      x ∈ taskIds (us.foldl (syncStep tzdb nowUtc) acc) ↔
        x ∈ taskIds acc ∨
          ∃ u ∈ us, hasRequiredFields u = true ∧
            cronJobOk tzdb nowUtc u = true ∧ u.user_id.getD "" = x := by
  intro us
  induction us with
  | nil => simp
  | cons u us ih =>
    intro acc x
    simp only [List.foldl_cons]
    rw [ih]
    have hstep : x ∈ taskIds (syncStep tzdb nowUtc acc u) ↔
        x ∈ taskIds acc ∨
          (hasRequiredFields u = true ∧ cronJobOk tzdb nowUtc u = true ∧
            u.user_id.getD "" = x) := by
      unfold syncStep
      by_cases hreq : hasRequiredFields u
      · cases hcj : createUserCronJob tzdb nowUtc u with
        | ok c =>
          have hok : cronJobOk tzdb nowUtc u = true := by
            simp [cronJobOk, hcj]
          simp only [hreq, Bool.not_true, Bool.false_eq_true, if_false,
            hcj, mem_taskIds_setTask, hok, true_and]
          exact or_congr Iff.rfl eq_comm
        | error e =>
          have hok : cronJobOk tzdb nowUtc u = false := by
            simp [cronJobOk, hcj]
          simp [hreq, hcj, hok]
      · have hreq' : hasRequiredFields u = false := by
          simpa using hreq
        simp [hreq']
    rw [hstep]
    constructor
    · rintro ((hx | hu0) | ⟨u', hu', hp⟩)
      · exact Or.inl hx
      · exact Or.inr ⟨u, List.mem_cons_self u us, hu0⟩
      · exact Or.inr ⟨u', List.mem_cons_of_mem u hu', hp⟩
    · rintro (hx | ⟨u', hu', hp⟩)
      · exact Or.inl (Or.inl hx)
      · rcases List.mem_cons.mp hu' with rfl | hmem
        · exact Or.inl (Or.inr hp)
        · exact Or.inr ⟨u', hmem, hp⟩

/-- C7 amended: after a completed sync cycle over a reachable registry
snapshot, a userId holds a trigger exactly when some snapshot entry has
all required fields, a truthy recipientId, *and* a schedule that
converts to a valid cron expression (`cronJobOk`); entries whose
conversion fails are skipped, so the claimed set (required fields +
recipientId alone) overshoots, as the counterexample shows. -/
theorem active_trigger_set_after_sync (tasks : TaskMap) (us : List User)
    (tzdb : String → Option TZ) (nowUtc : Int) (x : String) :
    x ∈ taskIds (syncAllSchedules tasks (some us) tzdb nowUtc) ↔
      ∃ u ∈ us, specValidEntry u = true ∧
        cronJobOk tzdb nowUtc u = true ∧ u.user_id.getD "" = x := by
  unfold syncAllSchedules getActiveUsers
  rw [mem_taskIds_syncFold]
  simp only [taskIds, List.map_nil, List.not_mem_nil, false_or,
    List.mem_filter, specValidEntry, Bool.and_eq_true]
  constructor
  · rintro ⟨u, ⟨hu, hsl⟩, hreq, hok, hx⟩
    exact ⟨u, hu, ⟨hreq, hsl⟩, hok, hx⟩
  · rintro ⟨u, hu, ⟨hreq, hsl⟩, hok, hx⟩
    exact ⟨u, ⟨hu, hsl⟩, hreq, hok, hx⟩

/-- Bounds extracted from a successful time-preference parse. -/
theorem parseTimePreference_bounds (s : String) (hh mm : Nat)
    (h : parseTimePreference s = some (hh, mm)) : hh ≤ 23 ∧ mm ≤ 59 := by
  simp only [parseTimePreference] at h
  split at h
  · rename_i hcond
    simp only [Option.some.injEq, Prod.mk.injEq] at h
    obtain ⟨rfl, rfl⟩ := h
    simpa using hcond
  · cases h

/-- C3: for every timezone and valid local time whose wall-clock
reading exists on today's date in that zone (the coherence hypothesis —
moment's resolution of the local time maps back to the same reading),
the UTC hour/minute that `convertToCronTime` computes is the UTC
reading of an instant whose local reading in that zone is the original
local time (round trip).  In particular, for America/New_York at local
08:00 the computed trigger is 12:00 UTC under UTC-4 and 13:00 UTC
under UTC-5. -/
theorem convertToCronTime_roundtrip :
    (∀ (z : TZ) (s : String) (hh mm : Nat) (nowUtc : Int),
      parseTimePreference s = some (hh, mm) →
      z.toUtc (localDayStart z nowUtc + ((hh * 60 + mm : Nat) : Int)) +
          z.offset (z.toUtc (localDayStart z nowUtc +
            ((hh * 60 + mm : Nat) : Int))) =
        localDayStart z nowUtc + ((hh * 60 + mm : Nat) : Int) →
      ∃ u : Int,
        cronHM (convertToCronTime s (some z) nowUtc) = some (utcHM u) ∧
        localHM z u = (hh, mm)) ∧
    convertToCronTime "08:00" (some newYorkMinus4) refNow =
      { minute := some 0, hour := some 12 } ∧
    convertToCronTime "08:00" (some newYorkMinus5) refNow =
      { minute := some 0, hour := some 13 } := by
  refine ⟨?_, by decide, by decide⟩
  intro z s hh mm nowUtc hp hcoh
  obtain ⟨hhb, hmb⟩ := parseTimePreference_bounds s hh mm hp
  refine ⟨z.toUtc (localDayStart z nowUtc + ((hh * 60 + mm : Nat) : Int)),
    ?_, ?_⟩
  · simp [convertToCronTime, hp, cronHM, utcHM]
  · simp only [localHM]
    rw [hcoh]
    have hmod : (localDayStart z nowUtc + ((hh * 60 + mm : Nat) : Int)) %
        minutesPerDay = ((hh * 60 + mm : Nat) : Int) := by
      simp only [localDayStart, minutesPerDay]
      omega
    rw [hmod]
    simp only [Prod.mk.injEq]
    constructor <;> omega

/-- Witness for the C3 round-trip theorem: America/New_York under
UTC-4, local time 08:00, at the reference instant. -/
theorem convertToCronTime_roundtrip_witness :
    ∃ u : Int,
      cronHM (convertToCronTime "08:00" (some newYorkMinus4) refNow) =
        some (utcHM u) ∧
      localHM newYorkMinus4 u = (8, 0) :=
  convertToCronTime_roundtrip.1 newYorkMinus4 "08:00" 8 0 refNow
    (by decide) (by decide)

/-- Trace invariant of the retry loop, from any starting attempt
number: at least one attempt runs and at most `remaining`; the awaited
delays are exactly `base * 2 ^ (attempt - 1)`, doubling per failed
attempt; and when every attempt fails the loop runs `remaining` times
and finishes according to `throwOnFailure`. -/
theorem retryGo_trace {α : Type} (op : Nat → Except String α) (tf : Bool)
    (base : Nat) :
    ∀ (remaining attempt : Nat), 1 ≤ remaining → 1 ≤ attempt →
      1 ≤ (retryGo op tf base attempt remaining).attempts ∧
      (retryGo op tf base attempt remaining).attempts ≤ remaining ∧
      (retryGo op tf base attempt remaining).delays =
        (List.range ((retryGo op tf base attempt remaining).attempts - 1)).map
          (fun i => base * 2 ^ (attempt - 1 + i)) ∧
      ((∀ j, ∃ e, op j = Except.error e) →
        (retryGo op tf base attempt remaining).attempts = remaining ∧
        (tf = true → ∃ e, (retryGo op tf base attempt remaining).result =
          RetryResult.thrown e) ∧
        (tf = false → (retryGo op tf base attempt remaining).result =
          RetryResult.emptyFallback)) := by
  intro remaining
  induction remaining with
  | zero => intro attempt h; exact absurd h (by omega)
  | succ r ih =>
    intro attempt hrem hatt
    cases hop : op attempt with
    | ok a =>
      have hgo : retryGo op tf base attempt (r + 1) =
          ⟨RetryResult.ok a, 1, []⟩ := by
        simp only [retryGo, hop]
      rw [hgo]
      refine ⟨le_refl 1, by show 1 ≤ r + 1; omega, by simp, ?_⟩
      intro hfail
      obtain ⟨e, he⟩ := hfail attempt
      rw [he] at hop
      cases hop
    | error e =>
      cases r with
      | zero =>
        cases tf with
        | true =>
          have hgo : retryGo op true base attempt 1 =
              ⟨RetryResult.thrown e, 1, []⟩ := by
            rw [retryGo, hop]
            rfl
          rw [hgo]
          exact ⟨le_refl 1, le_refl 1, by simp,
            fun _ => ⟨rfl, fun _ => ⟨e, rfl⟩, fun h => absurd h (by simp)⟩⟩
        | false =>
          have hgo : retryGo op false base attempt 1 =
              ⟨RetryResult.emptyFallback, 1, []⟩ := by
            rw [retryGo, hop]
            rfl
          rw [hgo]
          exact ⟨le_refl 1, le_refl 1, by simp,
            fun _ => ⟨rfl, fun h => absurd h (by simp), fun _ => rfl⟩⟩
      | succ r' =>
        have hgo : retryGo op tf base attempt (r' + 1 + 1) =
            ⟨(retryGo op tf base (attempt + 1) (r' + 1)).result,
              (retryGo op tf base (attempt + 1) (r' + 1)).attempts + 1,
              base * 2 ^ (attempt - 1) ::
                (retryGo op tf base (attempt + 1) (r' + 1)).delays⟩ := by
          rw [retryGo, hop]
        obtain ⟨ih1, ih2, ih3, ih4⟩ := ih (attempt + 1) (by omega) (by omega)
        rw [hgo]
        refine ⟨Nat.le_add_left 1 _, Nat.succ_le_succ ih2, ?_, ?_⟩
        · show base * 2 ^ (attempt - 1) ::
              (retryGo op tf base (attempt + 1) (r' + 1)).delays =
            (List.range ((retryGo op tf base (attempt + 1)
              (r' + 1)).attempts + 1 - 1)).map
              (fun i => base * 2 ^ (attempt - 1 + i))
          rw [ih3]
          have hsh : (retryGo op tf base (attempt + 1) (r' + 1)).attempts +
              1 - 1 = ((retryGo op tf base (attempt + 1) (r' + 1)).attempts
                - 1) + 1 := by omega
          rw [hsh, List.range_succ_eq_map]
          simp only [List.map_cons, List.map_map]
          refine List.cons_eq_cons.mpr ⟨by simp, ?_⟩
          apply List.map_congr_left
          intro i _
          simp only [Function.comp_apply, Nat.succ_eq_add_one]
          have h2 : (2 : Nat) ^ (attempt + 1 - 1 + i) =
              2 ^ (attempt - 1 + (i + 1)) := by
            congr 1
            omega
          rw [h2]
        · intro hfail
          obtain ⟨ha, hb, hc⟩ := ih4 hfail
          refine ⟨?_, ?_, ?_⟩
          · show (retryGo op tf base (attempt + 1) (r' + 1)).attempts + 1 =
              r' + 1 + 1
            omega
          · intro htf
            exact hb htf
          · intro htf
            exact hc htf

/-- C8 counterexample: with the defaults (`maxRetries = 3`,
`baseDelay = 1000`) and an always-failing operation, the delay that
precedes attempt 2 is 1000 ms, whereas the claimed formula
`base * 2 ^ (k - 1)` predicts 2000 ms for `k = 2`. -/
theorem retry_delay_exponent_off_by_one :
    (retryOperation (fun _ => (Except.error "boom" : Except String
        (List Nat))) true 3 1000).delays.get? 0 = some 1000 ∧
    1000 * 2 ^ (2 - 1) = 2000 ∧ (1000 : Nat) ≠ 2000 := by
  decide

/-- C8 amended: attempt 1 runs immediately and every later attempt `k`
is preceded by a delay of exactly `base * 2 ^ (k - 2)` (the code delays
`base * 2 ** (attempt - 1)` after failed attempt `attempt = k - 1`);
no attempts occur beyond `maxRetries`, and once every attempt fails the
helper rethrows the last error or returns the empty result according to
`throwOnFailure`. -/
theorem retryOperation_backoff_schedule {α : Type}
    (op : Nat → Except String α) (tf : Bool) (maxRetries baseDelay : Nat)
    (hmax : 1 ≤ maxRetries) :
    1 ≤ (retryOperation op tf maxRetries baseDelay).attempts ∧
    (retryOperation op tf maxRetries baseDelay).attempts ≤ maxRetries ∧
    (retryOperation op tf maxRetries baseDelay).delays =
      (List.range ((retryOperation op tf maxRetries baseDelay).attempts
        - 1)).map (fun i => baseDelay * 2 ^ i) ∧
    (∀ k, 2 ≤ k → k ≤ (retryOperation op tf maxRetries baseDelay).attempts →
      (retryOperation op tf maxRetries baseDelay).delays.get? (k - 2) =
        some (baseDelay * 2 ^ (k - 2))) ∧
    ((∀ j, ∃ e, op j = Except.error e) →
      (retryOperation op tf maxRetries baseDelay).attempts = maxRetries ∧
      (tf = true → ∃ e, (retryOperation op tf maxRetries baseDelay).result =
        RetryResult.thrown e) ∧
      (tf = false → (retryOperation op tf maxRetries baseDelay).result =
        RetryResult.emptyFallback)) := by
  obtain ⟨h1, h2, h3, h4⟩ :=
    retryGo_trace op tf baseDelay maxRetries 1 hmax (le_refl 1)
  have hdel : (retryOperation op tf maxRetries baseDelay).delays =
      (List.range ((retryOperation op tf maxRetries baseDelay).attempts
        - 1)).map (fun i => baseDelay * 2 ^ i) := by
    unfold retryOperation
    rw [h3]
    apply List.map_congr_left
    intro i _
    norm_num
  refine ⟨h1, h2, hdel, ?_, h4⟩
  intro k hk2 hkatt
  have hlt : k - 2 < (retryOperation op tf maxRetries baseDelay).attempts
      - 1 := by omega
  rw [hdel, List.get?_map, List.get?_range hlt]
  rfl

/-- Witness for the C8 amended theorem: defaults with an always-failing
operation. -/
theorem retryOperation_backoff_schedule_witness :
    1 ≤ (retryOperation (fun _ => (Except.error "x" : Except String
        (List Nat))) true 3 1000).attempts ∧
    (retryOperation (fun _ => (Except.error "x" : Except String
        (List Nat))) true 3 1000).attempts ≤ 3 :=
  ⟨(retryOperation_backoff_schedule (fun _ => (Except.error "x" :
      Except String (List Nat))) true 3 1000 (by omega)).1,
   (retryOperation_backoff_schedule (fun _ => (Except.error "x" :
      Except String (List Nat))) true 3 1000 (by omega)).2.1⟩
